import Mathlib

/-!
Verification of the pipeline state management in
`ritu1905-99/classroom_interaction_analysis` (`src/main.py`).

The program is a Streamlit script.  Its mutable state is
`st.session_state` with four fields: `processed_video`, `extracted_audio`,
`cleaned_audio` (each `None` or a temp-file path string) and `transcript`
(a string, initially `""`).  Each button handler in the script is modelled
here as one `Event`; `step` is the shallow embedding of the corresponding
handler body, including the Python truthiness checks that gate each
section (`if st.session_state.processed_video:` and so on).  Outcomes of
the external routines (MoviePy, noisereduce, Whisper, `os.unlink`) are
parameters of the events, since the handlers only branch on
success/exception.  Besides the session record we track the set of
temporary files existing on disk (`files`), since the spec talks about
artifacts being "released".
-/

set_option autoImplicit false

namespace Classroom

/-- Embedding of CPython `str.replace` (all leftmost non-overlapping
occurrences, for a non-empty pattern) on character lists, with fuel for
structural recursion; the fuel is instantiated with the string length,
which is always sufficient. -/
def replaceAux (pat repl : List Char) : Nat → List Char → List Char
  | _, [] => []
  | 0, l => l
  | fuel + 1, c :: rest =>
    if !pat.isEmpty && pat.isPrefixOf (c :: rest) then
      repl ++ replaceAux pat repl fuel ((c :: rest).drop pat.length)
    else
      c :: replaceAux pat repl fuel rest

/-- Embedding of Python `s.replace(pat, repl)` for the non-empty patterns
used by the program (`'.mp4'`, `'.wav'`). -/
def pyReplace (s pat repl : String) : String :=
  String.mk (replaceAux pat.data repl.data s.data.length s.data)

/-- Python truthiness of an optional string value of `st.session_state`:
`None` and the empty string are falsy. -/
def truthy : Option String → Bool
  | none => false
  | some s => s != ""

/-- The string held by an optional field (only used under a `truthy`
guard, where the field is `some`). -/
def pathOf (o : Option String) : String := o.getD ""

/-- Python `a or b` on optional strings: the first operand when truthy,
otherwise the second. -/
def pyOr (a b : Option String) : Option String :=
  if truthy a then a else b

/-- The four fields of `st.session_state` used by `src/main.py`. -/
structure SessionState where
  processed_video : Option String
  extracted_audio : Option String
  cleaned_audio : Option String
  transcript : String
deriving DecidableEq

/-- The full modelled program state: the session record plus the set of
temporary files currently existing on disk. -/
structure AppState where
  session : SessionState
  files : List String
deriving DecidableEq

/-- A Streamlit status message shown by a handler (`st.error`,
`st.success`, `st.info`).  The script never emits any other kind. -/
inductive Msg where
  | error (text : String)
  | success (text : String)
  | info (text : String)
deriving DecidableEq

/-- The two transcript download formats offered by the script. -/
inductive ExportFormat where
  | csv
  | plaintext
deriving DecidableEq

/-- Error for exporting before any transcript exists (the script hides
the download buttons in that case). -/
inductive ExportError where
  | noTranscript
deriving DecidableEq

/-- One row of the transcript table built at lines 185-189 of
`src/main.py`. -/
structure TranscriptRow where
  Timestamp : String
  Speaker : String
  Text : String
deriving DecidableEq

/-- The payload of a transcript download. -/
inductive ExportResult where
  | table (rows : List TranscriptRow)
  | text (t : String)
deriving DecidableEq

/-- One user-triggered handler execution of the script, carrying the
outcome of the external routine it invokes. -/
inductive Event where
  | upload (path : String)
  | extractAudio (outcome : Except String Unit)
  | removeNoise (outcome : Except String Unit)
  | generateTranscript (outcome : Except String String)
  | exportTranscript (format : ExportFormat)
  | clearAll (unlinkFails : String → Bool)

/-- Embedding of `extract_audio_from_video` (lines 25-36): returns `True`
on success, and on an exception shows the error and returns `False`. -/
def extract_audio_from_video (outcome : Except String Unit) : Bool × List Msg :=
  match outcome with
  | .ok _ => (true, [])
  | .error e => (false, [Msg.error ("Error extracting audio: " ++ e)])

/-- Embedding of `remove_noise_from_audio` (lines 38-52). -/
def remove_noise_from_audio (outcome : Except String Unit) : Bool × List Msg :=
  match outcome with
  | .ok _ => (true, [])
  | .error e => (false, [Msg.error ("Error removing noise: " ++ e)])

/-- Embedding of `transcribe_audio` (lines 54-62): returns the recognised
text on success, and on an exception shows the error and returns `None`. -/
def transcribe_audio (outcome : Except String String) : Option String × List Msg :=
  match outcome with
  | .ok t => (some t, [])
  | .error e => (none, [Msg.error ("Error transcribing audio: " ++ e)])

/-- The audio source chosen for transcription (line 163 of `src/main.py`):
`st.session_state.cleaned_audio or st.session_state.extracted_audio`. -/
def audio_for_transcription (s : SessionState) : Option String :=
  pyOr s.cleaned_audio s.extracted_audio

/-- Record a newly written temp file (sets-as-lists, no duplicates). -/
def addFile (path : String) (files : List String) : List String :=
  if path ∈ files then files else files ++ [path]

/-- Embedding of one iteration of the Clear-All loop (lines 253-258):
`if file_path and os.path.exists(file_path): try os.unlink except pass`. -/
def tryUnlink (unlinkFails : String → Bool) (files : List String)
    (file_path : Option String) : List String :=
  if truthy file_path then
    let path := pathOf file_path
    if path ∈ files then
      if unlinkFails path then files
      else files.filter (fun f => !(f == path))
    else files
  else files

/-- Embedding of the handler bodies of `src/main.py`.  `none` means the
handler is not reachable in the current state (its section is gated off
or replaced by an `st.info` hint).  The returned list collects the status
messages the handler shows. -/
def step (s : AppState) (e : Event) : Option (AppState × List Msg) :=
  match e with
  | .upload path =>
    some ({ session := { s.session with processed_video := some path },
            files := addFile path s.files },
          [Msg.success "✅ Video uploaded successfully!"])
  | .extractAudio outcome =>
    if truthy s.session.processed_video then
      let audio_path := pyReplace (pathOf s.session.processed_video) ".mp4" ".wav"
      let res := extract_audio_from_video outcome
      if res.fst then
        some ({ session := { s.session with extracted_audio := some audio_path },
                files := addFile audio_path s.files },
              res.snd ++ [Msg.success "✅ Audio extracted successfully!"])
      else
        some (s, res.snd)
    else none
  | .removeNoise outcome =>
    if truthy s.session.extracted_audio then
      let cleaned_audio_path := pyReplace (pathOf s.session.extracted_audio) ".wav" "_clean.wav"
      let res := remove_noise_from_audio outcome
      if res.fst then
        some ({ session := { s.session with cleaned_audio := some cleaned_audio_path },
                files := addFile cleaned_audio_path s.files },
              res.snd ++ [Msg.success "✅ Noise removed successfully!"])
      else
        some (s, res.snd)
    else none
  | .generateTranscript outcome =>
    if truthy (audio_for_transcription s.session) then
      let res := transcribe_audio outcome
      if truthy res.fst then
        some ({ s with session := { s.session with transcript := pathOf res.fst } },
              res.snd ++ [Msg.success "✅ Transcript generated successfully!"])
      else
        some (s, res.snd)
    else none
  | .exportTranscript _ =>
    if truthy (some s.session.transcript) then some (s, []) else none
  | .clearAll unlinkFails =>
    let files1 := tryUnlink unlinkFails s.files s.session.processed_video
    let files2 := tryUnlink unlinkFails files1 s.session.extracted_audio
    let files3 := tryUnlink unlinkFails files2 s.session.cleaned_audio
    some ({ session := { processed_video := none, extracted_audio := none,
                         cleaned_audio := none, transcript := "" },
            files := files3 },
          [Msg.success "All data cleared! Refresh the page to start over."])

/-- The transcript table built for the CSV download (lines 185-189): a
single row with constant `Timestamp` and `Speaker` columns. -/
def transcript_data (transcript : String) : List TranscriptRow :=
  [{ Timestamp := "Full Recording", Speaker := "Unknown", Text := transcript }]

/-- The transcript export operation: available only when a transcript is
present (the download buttons sit inside `if st.session_state.transcript:`),
otherwise it fails with `noTranscript`.  Pure formatting of the session. -/
def exportTranscript (s : SessionState) (format : ExportFormat) :
    Except ExportError ExportResult :=
  if s.transcript != "" then
    match format with
    | .csv => Except.ok (ExportResult.table (transcript_data s.transcript))
    | .plaintext => Except.ok (ExportResult.text s.transcript)
  else Except.error ExportError.noTranscript

/-- The session record right after the `st.session_state` setup block
(lines 16-23): everything absent, transcript empty. -/
def initSession : SessionState :=
  { processed_video := none, extracted_audio := none,
    cleaned_audio := none, transcript := "" }

/-- Program state at process start: fresh session, no temp files. -/
def initApp : AppState := { session := initSession, files := [] }

/-- Run a sequence of handler executions from a state; fails if any
handler is unavailable in its pre-state. -/
def run : AppState → List Event → Option AppState
  | s, [] => some s
  | s, e :: rest =>
    match step s e with
    | some (s2, _) => run s2 rest
    | none => none

/-- Validity of an event: an upload always carries the (never empty) name
of the fresh temp file created by `tempfile.NamedTemporaryFile`. -/
def validEventB : Event → Bool
  | .upload path => path != ""
  | _ => true

/-- A state the program can actually be in: produced from the start state
by some sequence of valid handler executions. -/
def Reachable (s : AppState) : Prop :=
  ∃ evs : List Event, evs.all validEventB = true ∧ run initApp evs = some s

/-- Path fields of the session are never `some ""`: either absent or a
real (non-empty) temp-file name.  Under this invariant Python truthiness
of a field coincides with the field being set. -/
def goodState (s : AppState) : Prop :=
  s.session.processed_video ≠ some "" ∧ s.session.extracted_audio ≠ some "" ∧
    s.session.cleaned_audio ≠ some ""

/-- The artifact paths currently held by the session, in the order the
Clear-All loop visits them (truthy fields only, as the loop checks
`if file_path`). -/
def heldPaths (sess : SessionState) : List String :=
  (if truthy sess.processed_video then [pathOf sess.processed_video] else []) ++
    (if truthy sess.extracted_audio then [pathOf sess.extracted_audio] else []) ++
    (if truthy sess.cleaned_audio then [pathOf sess.cleaned_audio] else [])

/-- The state after a single successful upload of `a.mp4`. -/
def stateAfterUpload : AppState :=
  { session := { processed_video := some "a.mp4", extracted_audio := none,
                 cleaned_audio := none, transcript := "" },
    files := ["a.mp4"] }

/-- The state after upload of `a.mp4` followed by a successful audio
extraction. -/
def stateAfterExtract : AppState :=
  { session := { processed_video := some "a.mp4", extracted_audio := some "a.wav",
                 cleaned_audio := none, transcript := "" },
    files := ["a.mp4", "a.wav"] }

/-- The state after upload, extraction and a successful denoise. -/
def stateAfterDenoise : AppState :=
  { session := { processed_video := some "a.mp4", extracted_audio := some "a.wav",
                 cleaned_audio := some "a_clean.wav", transcript := "" },
    files := ["a.mp4", "a.wav", "a_clean.wav"] }

/-- Handler sequence reaching `stateAfterDenoise`. -/
def eventsToDenoise : List Event :=
  [Event.upload "a.mp4", Event.extractAudio (Except.ok ()),
   Event.removeNoise (Except.ok ())]

/-- Trace for the C1 counterexample: upload, extract, then upload again. -/
def c1Events : List Event :=
  [Event.upload "a.mp4", Event.extractAudio (Except.ok ()), Event.upload "b.mp4"]

/-- The state the program actually reaches on `c1Events`. -/
def c1Final : AppState :=
  { session := { processed_video := some "b.mp4", extracted_audio := some "a.wav",
                 cleaned_audio := none, transcript := "" },
    files := ["a.mp4", "a.wav", "b.mp4"] }

/-- Trace for the C2 counterexample: a full run followed by a re-run of
the extraction stage. -/
def c2Events : List Event :=
  [Event.upload "a.mp4", Event.extractAudio (Except.ok ()),
   Event.removeNoise (Except.ok ()), Event.generateTranscript (Except.ok "hi"),
   Event.extractAudio (Except.ok ())]

/-- The state the program actually reaches on `c2Events`. -/
def c2Final : AppState :=
  { session := { processed_video := some "a.mp4", extracted_audio := some "a.wav",
                 cleaned_audio := some "a_clean.wav", transcript := "hi" },
    files := ["a.mp4", "a.wav", "a_clean.wav"] }

/-- A state holding a transcript and all three artifacts (for the C2
amended-claim witness). -/
def c2Witness0 : AppState :=
  { session := { processed_video := some "a.mp4", extracted_audio := some "a.wav",
                 cleaned_audio := some "a_clean.wav", transcript := "hi" },
    files := ["a.mp4", "a.wav", "a_clean.wav"] }

/-- Result of re-running extraction from `c2Witness0`. -/
def c2Witness1 : AppState :=
  { session := { processed_video := some "a.mp4", extracted_audio := some "a.wav",
                 cleaned_audio := some "a_clean.wav", transcript := "hi" },
    files := ["a.mp4", "a.wav", "a_clean.wav"] }

/-- Result of re-uploading `b.mp4` from `stateAfterExtract` (for the C1
amended-claim witness). -/
def c1Witness1 : AppState :=
  { session := { processed_video := some "b.mp4", extracted_audio := some "a.wav",
                 cleaned_audio := none, transcript := "" },
    files := ["a.mp4", "a.wav", "b.mp4"] }

/-- A state with one held video artifact (for the C4 counterexample). -/
def c4Held : AppState :=
  { session := { processed_video := some "a.mp4", extracted_audio := none,
                 cleaned_audio := none, transcript := "" },
    files := ["a.mp4"] }

/-- A state with two held artifacts and a transcript (for the C4
amended-claim witness). -/
def c4Start : AppState :=
  { session := { processed_video := some "a.mp4", extracted_audio := some "a.wav",
                 cleaned_audio := none, transcript := "t" },
    files := ["a.mp4", "a.wav"] }

/-- The state after clearing `c4Start` with no unlink failures. -/
def c4Done : AppState :=
  { session := { processed_video := none, extracted_audio := none,
                 cleaned_audio := none, transcript := "" },
    files := [] }

/-- Trace for the C6 counterexample: a successful transcription of
`"hello"`, then a successful transcription returning empty text. -/
def c6Events : List Event :=
  [Event.upload "a.mp4", Event.extractAudio (Except.ok ()),
   Event.generateTranscript (Except.ok "hello"),
   Event.generateTranscript (Except.ok "")]

/-- The state the program actually reaches on `c6Events`. -/
def c6Final : AppState :=
  { session := { processed_video := some "a.mp4", extracted_audio := some "a.wav",
                 cleaned_audio := none, transcript := "hello" },
    files := ["a.mp4", "a.wav"] }

/-- Result of transcribing `"hello"` from `stateAfterExtract` (for the C6
amended-claim witness). -/
def c6Witness1 : AppState :=
  { session := { processed_video := some "a.mp4", extracted_audio := some "a.wav",
                 cleaned_audio := none, transcript := "hello" },
    files := ["a.mp4", "a.wav"] }

/-- Result of transcribing `"hello world"` from `stateAfterExtract` (for
the C7 witness). -/
def c7Witness1 : AppState :=
  { session := { processed_video := some "a.mp4", extracted_audio := some "a.wav",
                 cleaned_audio := none, transcript := "hello world" },
    files := ["a.mp4", "a.wav"] }

theorem replaceAux_ne_nil (pat repl : List Char) (hrepl : repl ≠ [])
    (fuel : Nat) (l : List Char) (hl : l ≠ []) :
    replaceAux pat repl fuel l ≠ [] := by
  cases l with
  | nil => exact absurd rfl hl
  | cons c rest =>
    cases fuel with
    | zero => simp [replaceAux]
    | succ fuel =>
      simp only [replaceAux]
      split
      · exact fun h => hrepl (List.append_eq_nil.mp h).1
      · simp

theorem pyReplace_ne_empty (s pat repl : String) (hs : s ≠ "") (hr : repl ≠ "") :
    pyReplace s pat repl ≠ "" := by
  have hs' : s.data ≠ [] := by
    intro h
    apply hs
    cases s with | mk d => simp_all
  have hr' : repl.data ≠ [] := by
    intro h
    apply hr
    cases repl with | mk d => simp_all
  intro h
  have hdata : (pyReplace s pat repl).data = [] := by rw [h]
  exact replaceAux_ne_nil pat.data repl.data hr' s.data.length s.data hs' hdata

theorem truthy_none : truthy none = false := rfl

theorem truthy_some_iff (v : String) : truthy (some v) = true ↔ v ≠ "" := by
  simp [truthy]

theorem truthy_eq_true_iff (x : Option String) :
    truthy x = true ↔ ∃ v, x = some v ∧ v ≠ "" := by
  cases x <;> simp [truthy]

theorem pathOf_some (v : String) : pathOf (some v) = v := rfl

theorem truthy_pyOr (a b : Option String) :
    truthy (pyOr a b) = (truthy a || truthy b) := by
  unfold pyOr
  by_cases h : truthy a = true
  · simp [h]
  · simp only [Bool.not_eq_true] at h
    simp [h]

/-- Under the `goodState` invariant, truthiness of a path field is just
the field being set. -/
theorem truthy_eq_isSome (x : Option String) (hx : x ≠ some "") :
    truthy x = x.isSome := by
  cases x with
  | none => rfl
  | some v =>
    have hv : v ≠ "" := fun h => hx (by rw [h])
    simp [truthy, Option.isSome, hv]

/-- Every available handler execution preserves the `goodState`
invariant. -/
theorem step_good (s s2 : AppState) (e : Event) (msgs : List Msg)
    (hv : validEventB e = true) (hg : goodState s)
    (h : step s e = some (s2, msgs)) : goodState s2 := by
  obtain ⟨hg1, hg2, hg3⟩ := hg
  cases e with
  | upload path =>
    have hpath : path ≠ "" := by simpa [validEventB] using hv
    simp only [step, Option.some.injEq, Prod.mk.injEq] at h
    obtain ⟨hA, hB⟩ := h
    subst hA
    exact ⟨fun hc => hpath (Option.some.inj hc), hg2, hg3⟩
  | extractAudio outcome =>
    simp only [step] at h
    split at h
    case isTrue hgate =>
      obtain ⟨v, hvid, hv0⟩ := (truthy_eq_true_iff _).mp hgate
      cases outcome with
      | ok u =>
        simp only [extract_audio_from_video, if_true, Option.some.injEq,
          Prod.mk.injEq] at h
        obtain ⟨hA, hB⟩ := h
        subst hA
        refine ⟨hg1, fun hc => ?_, hg3⟩
        refine pyReplace_ne_empty (pathOf s.session.processed_video) ".mp4" ".wav"
          ?_ (by decide) (Option.some.inj hc)
        rw [hvid, pathOf_some]
        exact hv0
      | error emsg =>
        simp only [extract_audio_from_video, Bool.false_eq_true, if_false,
          Option.some.injEq, Prod.mk.injEq] at h
        obtain ⟨hA, hB⟩ := h
        subst hA
        exact ⟨hg1, hg2, hg3⟩
    case isFalse hgate => simp at h
  | removeNoise outcome =>
    simp only [step] at h
    split at h
    case isTrue hgate =>
      obtain ⟨v, hvid, hv0⟩ := (truthy_eq_true_iff _).mp hgate
      cases outcome with
      | ok u =>
        simp only [remove_noise_from_audio, if_true, Option.some.injEq,
          Prod.mk.injEq] at h
        obtain ⟨hA, hB⟩ := h
        subst hA
        refine ⟨hg1, hg2, fun hc => ?_⟩
        refine pyReplace_ne_empty (pathOf s.session.extracted_audio) ".wav" "_clean.wav"
          ?_ (by decide) (Option.some.inj hc)
        rw [hvid, pathOf_some]
        exact hv0
      | error emsg =>
        simp only [remove_noise_from_audio, Bool.false_eq_true, if_false,
          Option.some.injEq, Prod.mk.injEq] at h
        obtain ⟨hA, hB⟩ := h
        subst hA
        exact ⟨hg1, hg2, hg3⟩
    case isFalse hgate => simp at h
  | generateTranscript outcome =>
    simp only [step] at h
    split at h
    case isTrue hgate =>
      cases outcome with
      | ok t =>
        simp only [transcribe_audio] at h
        split at h
        all_goals
          simp only [Option.some.injEq, Prod.mk.injEq] at h
          obtain ⟨hA, hB⟩ := h
          subst hA
          exact ⟨hg1, hg2, hg3⟩
      | error emsg =>
        simp only [transcribe_audio, truthy, Bool.false_eq_true, if_false,
          Option.some.injEq, Prod.mk.injEq] at h
        obtain ⟨hA, hB⟩ := h
        subst hA
        exact ⟨hg1, hg2, hg3⟩
    case isFalse hgate => simp at h
  | exportTranscript format =>
    simp only [step] at h
    split at h
    case isTrue hgate =>
      simp only [Option.some.injEq, Prod.mk.injEq] at h
      obtain ⟨hA, hB⟩ := h
      subst hA
      exact ⟨hg1, hg2, hg3⟩
    case isFalse hgate => simp at h
  | clearAll unlinkFails =>
    simp only [step, Option.some.injEq, Prod.mk.injEq] at h
    obtain ⟨hA, hB⟩ := h
    subst hA
    exact ⟨by simp, by simp, by simp⟩

/-- Running a sequence of valid handler executions preserves the
invariant. -/
theorem run_good (evs : List Event) : ∀ s s2 : AppState,
    evs.all validEventB = true → goodState s → run s evs = some s2 →
    goodState s2 := by
  induction evs with
  | nil =>
    intro s s2 _ hg h
    simp only [run, Option.some.injEq] at h
    subst h
    exact hg
  | cons e rest ih =>
    intro s s2 hall hg h
    simp only [List.all_cons, Bool.and_eq_true] at hall
    simp only [run] at h
    cases hstep : step s e with
    | none => rw [hstep] at h; simp at h
    | some p =>
      rw [hstep] at h
      exact ih p.fst s2 hall.2 (step_good s p.fst e p.snd hall.1 hg hstep) h

/-- Every reachable state satisfies the `goodState` invariant. -/
theorem reachable_good (s : AppState) (h : Reachable s) : goodState s := by
  obtain ⟨evs, hall, hrun⟩ := h
  exact run_good evs initApp s hall ⟨by decide, by decide, by decide⟩ hrun

/-- One Clear-All loop iteration never creates files. -/
theorem tryUnlink_subset (uf : String → Bool) (files : List String)
    (fp : Option String) (p : String) (hp : p ∈ tryUnlink uf files fp) :
    p ∈ files := by
  simp only [tryUnlink] at hp
  split at hp
  · split at hp
    · split at hp
      · exact hp
      · exact (List.mem_filter.mp hp).1
    · exact hp
  · exact hp

/-- One Clear-All loop iteration cannot resurrect a file already gone. -/
theorem tryUnlink_not_mem (uf : String → Bool) (files : List String)
    (fp : Option String) (p : String) (hp : p ∉ files) :
    p ∉ tryUnlink uf files fp :=
  fun hmem => hp (tryUnlink_subset uf files fp p hmem)

/-- An iteration of the Clear-All loop on a held path whose `os.unlink`
succeeds deletes that file. -/
theorem tryUnlink_removes (uf : String → Bool) (files : List String)
    (p : String) (hp : p ≠ "") (huf : uf p = false) :
    p ∉ tryUnlink uf files (some p) := by
  have ht : truthy (some p) = true := (truthy_some_iff p).mpr hp
  simp only [tryUnlink, ht, if_true, pathOf_some]
  by_cases hmem : p ∈ files
  · simp [hmem, huf, List.mem_filter]
  · simp [hmem]

/-- Characterisation of the paths visited by the Clear-All loop. -/
theorem mem_heldPaths (sess : SessionState) (p : String)
    (hp : p ∈ heldPaths sess) :
    (sess.processed_video = some p ∨ sess.extracted_audio = some p ∨
      sess.cleaned_audio = some p) ∧ p ≠ "" := by
  have hone : ∀ o : Option String,
      p ∈ (if truthy o then [pathOf o] else []) → o = some p ∧ p ≠ "" := by
    intro o hmem
    split at hmem
    case isTrue ht =>
      rcases (truthy_eq_true_iff o).mp ht with ⟨v, hv, hv0⟩
      simp only [List.mem_singleton] at hmem
      subst hmem
      exact ⟨by rw [hv, pathOf_some], by rw [hv, pathOf_some]; exact hv0⟩
    case isFalse ht => simp at hmem
  simp only [heldPaths, List.mem_append] at hp
  rcases hp with (h1 | h2) | h3
  · exact ⟨Or.inl (hone _ h1).1, (hone _ h1).2⟩
  · exact ⟨Or.inr (Or.inl (hone _ h2).1), (hone _ h2).2⟩
  · exact ⟨Or.inr (Or.inr (hone _ h3).1), (hone _ h3).2⟩

/-- A successful transcription with non-empty text stores that text. -/
theorem transcript_after_ok (s s2 : AppState) (msgs : List Msg) (t : String)
    (ht : t ≠ "")
    (h : step s (Event.generateTranscript (Except.ok t)) = some (s2, msgs)) :
    s2.session.transcript = t := by
  simp only [step, transcribe_audio] at h
  split at h
  case isTrue hgate =>
    split at h
    case isTrue ht2 =>
      simp only [Option.some.injEq, Prod.mk.injEq] at h
      obtain ⟨hA, hB⟩ := h
      subst hA
      exact pathOf_some t
    case isFalse ht2 =>
      exact absurd ((truthy_some_iff t).mpr ht) ht2
  case isFalse hgate => simp at h

/-- A successful transcription returning empty text stores nothing. -/
theorem transcript_after_ok_empty (s s2 : AppState) (msgs : List Msg)
    (h : step s (Event.generateTranscript (Except.ok "")) = some (s2, msgs)) :
    s2.session.transcript = s.session.transcript := by
  simp only [step, transcribe_audio] at h
  split at h
  case isTrue hgate =>
    split at h
    case isTrue ht2 => simp [truthy] at ht2
    case isFalse ht2 =>
      simp only [Option.some.injEq, Prod.mk.injEq] at h
      obtain ⟨hA, hB⟩ := h
      subst hA
      rfl
  case isFalse hgate => simp at h

/-- C1, counterexample: after `upload a.mp4`, a successful
`extractAudio`, and `upload b.mp4`, the claim says `audioArtifact` is
absent and the old video artifact released; the code instead keeps
`extracted_audio = some "a.wav"` and leaves the old temp file `a.mp4` on
disk. -/
theorem c1_counterexample :
    run initApp c1Events = some c1Final ∧
      c1Final.session.extracted_audio ≠ none ∧ "a.mp4" ∈ c1Final.files :=
  ⟨rfl, by decide, by decide⟩

/-- C1, amended: re-invoking `upload` replaces `videoArtifact` with the
new upload (the session stays in the uploaded state), but the prior video
file is not released and all downstream artifacts (`audioArtifact`,
`cleanedAudioArtifact`, `transcript`) are left unchanged rather than
cleared. -/
theorem c1_amended_reupload_keeps_downstream (s s2 : AppState)
    (msgs : List Msg) (path : String)
    (h : step s (Event.upload path) = some (s2, msgs)) :
    s2.session.processed_video = some path ∧
      s2.session.extracted_audio = s.session.extracted_audio ∧
      s2.session.cleaned_audio = s.session.cleaned_audio ∧
      s2.session.transcript = s.session.transcript ∧
      ∀ f ∈ s.files, f ∈ s2.files := by
  simp only [step, Option.some.injEq, Prod.mk.injEq] at h
  obtain ⟨hA, hB⟩ := h
  subst hA
  refine ⟨rfl, rfl, rfl, rfl, ?_⟩
  intro f hf
  unfold addFile
  split
  · exact hf
  · exact List.mem_append_left _ hf

/-- C1, witness for the amended claim: re-uploading `b.mp4` over
`stateAfterExtract` leaves the stale extracted-audio file `a.mp4`'s
sibling artifacts untouched and the old video file on disk. -/
theorem c1_amended_witness : ("a.mp4" : String) ∈ c1Witness1.files :=
  (c1_amended_reupload_keeps_downstream stateAfterExtract c1Witness1
    [Msg.success "✅ Video uploaded successfully!"] "b.mp4" rfl).2.2.2.2
    "a.mp4" (by decide)

/-- C2, counterexample: after a full successful run and a re-run of
`extractAudio`, the claim says `cleanedAudioArtifact` and `transcript`
are absent; the code keeps both. -/
theorem c2_counterexample :
    run initApp c2Events = some c2Final ∧
      c2Final.session.cleaned_audio ≠ none ∧ c2Final.session.transcript ≠ "" :=
  ⟨rfl, by decide, by decide⟩

/-- C2, amended: re-running an upstream stage does not clear downstream
results: a successful `extractAudio` leaves any stale
`cleanedAudioArtifact` and `transcript` unchanged (still present), and a
successful `denoise` leaves any stale `transcript` unchanged. -/
theorem c2_amended_upstream_rerun_keeps_downstream (s : AppState) :
    (∀ s2 msgs, step s (Event.extractAudio (Except.ok ())) = some (s2, msgs) →
      s2.session.cleaned_audio = s.session.cleaned_audio ∧
        s2.session.transcript = s.session.transcript) ∧
    (∀ s2 msgs, step s (Event.removeNoise (Except.ok ())) = some (s2, msgs) →
      s2.session.transcript = s.session.transcript) := by
  constructor
  · intro s2 msgs h
    simp only [step] at h
    split at h
    case isTrue hgate =>
      simp only [extract_audio_from_video, if_true, Option.some.injEq,
        Prod.mk.injEq] at h
      obtain ⟨hA, hB⟩ := h
      subst hA
      exact ⟨rfl, rfl⟩
    case isFalse hgate => simp at h
  · intro s2 msgs h
    simp only [step] at h
    split at h
    case isTrue hgate =>
      simp only [remove_noise_from_audio, if_true, Option.some.injEq,
        Prod.mk.injEq] at h
      obtain ⟨hA, hB⟩ := h
      subst hA
      rfl
    case isFalse hgate => simp at h

/-- C2, witness for the amended claim: re-running `extractAudio` over a
state holding a cleaned artifact and a transcript keeps both. -/
theorem c2_amended_witness :
    c2Witness1.session.cleaned_audio = c2Witness0.session.cleaned_audio ∧
      c2Witness1.session.transcript = c2Witness0.session.transcript :=
  (c2_amended_upstream_rerun_keeps_downstream c2Witness0).1 c2Witness1
    [Msg.success "✅ Audio extracted successfully!"] rfl

/-- C3: the transcribe handler is available exactly when
`extracted_audio` or `cleaned_audio` is set, and when both are set the
audio passed to the transcription routine
(`audio_for_transcription`, line 163) is the cleaned one. -/
theorem c3_transcribe_availability_and_preference (s : AppState)
    (o : Except String String) (hr : Reachable s) :
    ((step s (Event.generateTranscript o)).isSome = true ↔
      (s.session.extracted_audio.isSome = true ∨
        s.session.cleaned_audio.isSome = true)) ∧
    (s.session.extracted_audio.isSome = true →
      s.session.cleaned_audio.isSome = true →
      audio_for_transcription s.session = s.session.cleaned_audio) := by
  obtain ⟨hg1, hg2, hg3⟩ := reachable_good s hr
  have hio : (step s (Event.generateTranscript o)).isSome =
      truthy (audio_for_transcription s.session) := by
    simp only [step]
    split
    case isTrue hgate =>
      cases o with
      | ok t =>
        simp only [transcribe_audio]
        split <;> simp [hgate]
      | error e => simp [transcribe_audio, truthy_none, hgate]
    case isFalse hgate =>
      simp only [Bool.not_eq_true] at hgate
      simp [hgate]
  constructor
  · rw [hio, audio_for_transcription, truthy_pyOr, truthy_eq_isSome _ hg3,
      truthy_eq_isSome _ hg2, Bool.or_eq_true]
    exact or_comm
  · intro he hc
    have hcl : truthy s.session.cleaned_audio = true := by
      rw [truthy_eq_isSome _ hg3]
      exact hc
    simp [audio_for_transcription, pyOr, hcl]

/-- C3, witness: in the reachable state after upload, extraction and
denoise, both audio artifacts are set and the transcription input is the
cleaned one. -/
theorem c3_witness :
    audio_for_transcription stateAfterDenoise.session =
      stateAfterDenoise.session.cleaned_audio :=
  (c3_transcribe_availability_and_preference stateAfterDenoise
    (Except.ok "hi") ⟨eventsToDenoise, by decide, rfl⟩).2 rfl rfl

/-- C4, counterexample: clearing a state whose only held artifact fails
to unlink leaves the file on disk, yet the handler reports only the
success message — the release failure is silently swallowed by
`except: pass`, not collected as a warning. -/
theorem c4_counterexample :
    step c4Held (Event.clearAll (fun p => p == "a.mp4")) =
      some ({ session := { processed_video := none, extracted_audio := none,
                           cleaned_audio := none, transcript := "" },
              files := ["a.mp4"] },
            [Msg.success "All data cleared! Refresh the page to start over."]) :=
  rfl

/-- C4, amended: for every prior state, reset attempts to release every
artifact currently held best-effort (individual release failures are
silently ignored — `except: pass` — and never abort the reset) and
afterwards the session is `Empty`: `videoArtifact`, `audioArtifact`,
`cleanedAudioArtifact` are absent and the transcript is cleared, even
when some releases failed; every held artifact whose unlink succeeds is
actually deleted. -/
theorem c4_amended_reset (s s2 : AppState) (msgs : List Msg)
    (unlinkFails : String → Bool)
    (h : step s (Event.clearAll unlinkFails) = some (s2, msgs)) :
    s2.session.processed_video = none ∧ s2.session.extracted_audio = none ∧
      s2.session.cleaned_audio = none ∧ s2.session.transcript = "" ∧
      ∀ p ∈ heldPaths s.session, unlinkFails p = false → p ∉ s2.files := by
  simp only [step, Option.some.injEq, Prod.mk.injEq] at h
  obtain ⟨hA, hB⟩ := h
  subst hA
  refine ⟨rfl, rfl, rfl, rfl, ?_⟩
  intro p hp hfail
  obtain ⟨hfield, hp0⟩ := mem_heldPaths s.session p hp
  rcases hfield with hf | hf | hf
  · rw [hf]
    exact tryUnlink_not_mem _ _ _ _ (tryUnlink_not_mem _ _ _ _
      (tryUnlink_removes unlinkFails s.files p hp0 hfail))
  · rw [hf]
    exact tryUnlink_not_mem _ _ _ _
      (tryUnlink_removes unlinkFails _ p hp0 hfail)
  · rw [hf]
    exact tryUnlink_removes unlinkFails _ p hp0 hfail

/-- C4, witness for the amended claim: clearing a state holding a video
and an extracted-audio artifact with no unlink failures deletes the
video file. -/
theorem c4_amended_witness : ("a.mp4" : String) ∉ c4Done.files :=
  (c4_amended_reset c4Start c4Done
    [Msg.success "All data cleared! Refresh the page to start over."]
    (fun _ => false) rfl).2.2.2.2 "a.mp4" (by decide) rfl

/-- C5: when the extraction routine raises (e.g. the video has no audio
stream), the handler reports the extraction error and leaves the whole
state unchanged — in particular the state stays uploaded and
`audioArtifact` stays exactly as it was (absent if absent before). -/
theorem c5_extract_failure_state_unchanged (s : AppState) (emsg : String)
    (h : truthy s.session.processed_video = true) :
    step s (Event.extractAudio (Except.error emsg)) =
      some (s, [Msg.error ("Error extracting audio: " ++ emsg)]) := by
  simp [step, extract_audio_from_video, h]

/-- C5, witness: extracting from an uploaded video with no audio stream
fails, reports the error, and leaves `stateAfterUpload` unchanged. -/
theorem c5_witness :
    step stateAfterUpload (Event.extractAudio (Except.error "No audio stream")) =
      some (stateAfterUpload,
        [Msg.error ("Error extracting audio: " ++ "No audio stream")]) :=
  c5_extract_failure_state_unchanged stateAfterUpload "No audio stream" rfl

/-- C6, counterexample: after a successful transcription of `"hello"`, a
second transcription that succeeds with empty text should (per the
claim) store `""`; the code's `if transcript:` guard treats the empty
result as falsy and keeps the old transcript `"hello"`. -/
theorem c6_counterexample :
    run initApp c6Events = some c6Final ∧ c6Final.session.transcript = "hello" :=
  ⟨rfl, rfl⟩

/-- C6, amended: when the transcription routine succeeds with non-empty
text, `transcribe()` stores it as the session transcript; when the
returned text is empty it is treated like an absent result (the
`if transcript:` guard) and the session transcript is left unchanged. -/
theorem c6_amended_transcribe_stores_nonempty (s s2 : AppState)
    (msgs : List Msg) (t : String)
    (h : step s (Event.generateTranscript (Except.ok t)) = some (s2, msgs)) :
    (t ≠ "" → s2.session.transcript = t) ∧
      (t = "" → s2.session.transcript = s.session.transcript) := by
  constructor
  · intro ht
    exact transcript_after_ok s s2 msgs t ht h
  · intro ht
    subst ht
    exact transcript_after_ok_empty s s2 msgs h

/-- C6, witness for the amended claim: transcribing `"hello"` from the
post-extraction state stores `"hello"`. -/
theorem c6_amended_witness : c6Witness1.session.transcript = "hello" :=
  (c6_amended_transcribe_stores_nonempty stateAfterExtract c6Witness1
    [Msg.success "✅ Transcript generated successfully!"] "hello" rfl).1
    (by decide)

/-- C7: for every non-empty text `t` stored by a successful
transcription, the CSV export built from the resulting state is a table
with exactly one data row, with `Timestamp = "Full Recording"`,
`Speaker = "Unknown"` and `Text = t`. -/
theorem c7_csv_export_single_row (s s2 : AppState) (msgs : List Msg)
    (t : String) (ht : t ≠ "")
    (h : step s (Event.generateTranscript (Except.ok t)) = some (s2, msgs)) :
    exportTranscript s2.session ExportFormat.csv =
      Except.ok (ExportResult.table
        [{ Timestamp := "Full Recording", Speaker := "Unknown", Text := t }]) := by
  have htr : s2.session.transcript = t := transcript_after_ok s s2 msgs t ht h
  simp [exportTranscript, htr, ht, transcript_data]

/-- C7, witness: after transcribing `"hello world"`, the CSV export is
the single row `("Full Recording", "Unknown", "hello world")`. -/
theorem c7_witness :
    exportTranscript c7Witness1.session ExportFormat.csv =
      Except.ok (ExportResult.table
        [{ Timestamp := "Full Recording", Speaker := "Unknown",
           Text := "hello world" }]) :=
  c7_csv_export_single_row stateAfterExtract c7Witness1
    [Msg.success "✅ Transcript generated successfully!"] "hello world"
    (by decide) rfl

/-- C8: along any reachable execution, whenever a handler execution
creates or replaces a downstream artifact, the required upstream
artifact was present in the pre-state: extraction requires the video,
denoising requires the extracted audio, and a (non-empty) transcript
requires the extracted or the cleaned audio. -/
theorem c8_no_stage_skipping (evs : List Event) (s s2 : AppState)
    (e : Event) (msgs : List Msg) (_hreach : run initApp evs = some s)
    (hstep : step s e = some (s2, msgs)) :
    (s2.session.extracted_audio.isSome = true ∧
        s2.session.extracted_audio ≠ s.session.extracted_audio →
      truthy s.session.processed_video = true) ∧
    (s2.session.cleaned_audio.isSome = true ∧
        s2.session.cleaned_audio ≠ s.session.cleaned_audio →
      truthy s.session.extracted_audio = true) ∧
    (s2.session.transcript ≠ "" ∧
        s2.session.transcript ≠ s.session.transcript →
      truthy s.session.extracted_audio = true ∨
        truthy s.session.cleaned_audio = true) := by
  cases e with
  | upload path =>
    simp only [step, Option.some.injEq, Prod.mk.injEq] at hstep
    obtain ⟨hA, hB⟩ := hstep
    subst hA
    exact ⟨fun hc => absurd rfl hc.2, fun hc => absurd rfl hc.2,
      fun hc => absurd rfl hc.2⟩
  | extractAudio outcome =>
    simp only [step] at hstep
    split at hstep
    case isTrue hgate =>
      cases outcome with
      | ok u =>
        simp only [extract_audio_from_video, if_true, Option.some.injEq,
          Prod.mk.injEq] at hstep
        obtain ⟨hA, hB⟩ := hstep
        subst hA
        exact ⟨fun _ => hgate, fun hc => absurd rfl hc.2,
          fun hc => absurd rfl hc.2⟩
      | error emsg =>
        simp only [extract_audio_from_video, Bool.false_eq_true, if_false,
          Option.some.injEq, Prod.mk.injEq] at hstep
        obtain ⟨hA, hB⟩ := hstep
        subst hA
        exact ⟨fun hc => absurd rfl hc.2, fun hc => absurd rfl hc.2,
          fun hc => absurd rfl hc.2⟩
    case isFalse hgate => simp at hstep
  | removeNoise outcome =>
    simp only [step] at hstep
    split at hstep
    case isTrue hgate =>
      cases outcome with
      | ok u =>
        simp only [remove_noise_from_audio, if_true, Option.some.injEq,
          Prod.mk.injEq] at hstep
        obtain ⟨hA, hB⟩ := hstep
        subst hA
        exact ⟨fun hc => absurd rfl hc.2, fun _ => hgate,
          fun hc => absurd rfl hc.2⟩
      | error emsg =>
        simp only [remove_noise_from_audio, Bool.false_eq_true, if_false,
          Option.some.injEq, Prod.mk.injEq] at hstep
        obtain ⟨hA, hB⟩ := hstep
        subst hA
        exact ⟨fun hc => absurd rfl hc.2, fun hc => absurd rfl hc.2,
          fun hc => absurd rfl hc.2⟩
    case isFalse hgate => simp at hstep
  | generateTranscript outcome =>
    simp only [step] at hstep
    split at hstep
    case isTrue hgate =>
      have hor : truthy s.session.extracted_audio = true ∨
          truthy s.session.cleaned_audio = true := by
        rw [audio_for_transcription, truthy_pyOr, Bool.or_eq_true] at hgate
        exact hgate.symm
      split at hstep
      all_goals
        simp only [Option.some.injEq, Prod.mk.injEq] at hstep
        obtain ⟨hA, hB⟩ := hstep
        subst hA
        exact ⟨fun hc => absurd rfl hc.2, fun hc => absurd rfl hc.2,
          fun _ => hor⟩
    case isFalse hgate => simp at hstep
  | exportTranscript format =>
    simp only [step] at hstep
    split at hstep
    case isTrue hgate =>
      simp only [Option.some.injEq, Prod.mk.injEq] at hstep
      obtain ⟨hA, hB⟩ := hstep
      subst hA
      exact ⟨fun hc => absurd rfl hc.2, fun hc => absurd rfl hc.2,
        fun hc => absurd rfl hc.2⟩
    case isFalse hgate => simp at hstep
  | clearAll unlinkFails =>
    simp only [step, Option.some.injEq, Prod.mk.injEq] at hstep
    obtain ⟨hA, hB⟩ := hstep
    subst hA
    exact ⟨fun hc => Bool.noConfusion hc.1, fun hc => Bool.noConfusion hc.1,
      fun hc => absurd rfl hc.1⟩

/-- C8, witness: the extraction step out of `stateAfterUpload` creates
the audio artifact, and indeed the video artifact was present. -/
theorem c8_witness : truthy stateAfterUpload.session.processed_video = true :=
  (c8_no_stage_skipping [Event.upload "a.mp4"] stateAfterUpload
    stateAfterExtract (Event.extractAudio (Except.ok ()))
    [Msg.success "✅ Audio extracted successfully!"] rfl rfl).1
    ⟨rfl, by decide⟩

/-- C9: the transcript export is available exactly when the transcript
is set (non-empty); invoked without a transcript it fails with
`noTranscript`, and when available it is pure formatting that leaves the
program state unchanged. -/
theorem c9_export_requires_transcript (s : AppState) (format : ExportFormat) :
    ((step s (Event.exportTranscript format)).isSome = true ↔
      s.session.transcript ≠ "") ∧
    (s.session.transcript = "" →
      exportTranscript s.session format = Except.error ExportError.noTranscript) ∧
    (∀ s2 msgs, step s (Event.exportTranscript format) = some (s2, msgs) →
      s2 = s) := by
  refine ⟨?_, ?_, ?_⟩
  · simp only [step]
    split
    case isTrue ht =>
      exact iff_of_true rfl ((truthy_some_iff _).mp ht)
    case isFalse ht =>
      have h0 : s.session.transcript = "" := by
        by_contra hc
        exact ht ((truthy_some_iff _).mpr hc)
      simp [h0]
  · intro h0
    simp [exportTranscript, h0]
  · intro s2 msgs h
    simp only [step] at h
    split at h
    case isTrue ht =>
      simp only [Option.some.injEq, Prod.mk.injEq] at h
      exact h.1.symm
    case isFalse ht => simp at h

/-- C9, witness: in the start state (no transcript yet) the CSV export
fails with `noTranscript`. -/
theorem c9_witness :
    exportTranscript initApp.session ExportFormat.csv =
      Except.error ExportError.noTranscript :=
  (c9_export_requires_transcript initApp ExportFormat.csv).2.1 rfl

/-- C10: each stage writes only its own session field: a successful
denoise leaves `processed_video`, `extracted_audio` and `transcript`
exactly as they were, and a successful transcription leaves
`processed_video`, `extracted_audio` and `cleaned_audio` exactly as they
were. -/
theorem c10_stage_frame (s : AppState) :
    (∀ s2 msgs, step s (Event.removeNoise (Except.ok ())) = some (s2, msgs) →
      s2.session.processed_video = s.session.processed_video ∧
        s2.session.extracted_audio = s.session.extracted_audio ∧
        s2.session.transcript = s.session.transcript) ∧
    (∀ t s2 msgs,
      step s (Event.generateTranscript (Except.ok t)) = some (s2, msgs) →
      s2.session.processed_video = s.session.processed_video ∧
        s2.session.extracted_audio = s.session.extracted_audio ∧
        s2.session.cleaned_audio = s.session.cleaned_audio) := by
  constructor
  · intro s2 msgs h
    simp only [step] at h
    split at h
    case isTrue hgate =>
      simp only [remove_noise_from_audio, if_true, Option.some.injEq,
        Prod.mk.injEq] at h
      obtain ⟨hA, hB⟩ := h
      subst hA
      exact ⟨rfl, rfl, rfl⟩
    case isFalse hgate => simp at h
  · intro t s2 msgs h
    simp only [step, transcribe_audio] at h
    split at h
    case isTrue hgate =>
      split at h
      all_goals
        simp only [Option.some.injEq, Prod.mk.injEq] at h
        obtain ⟨hA, hB⟩ := h
        subst hA
        exact ⟨rfl, rfl, rfl⟩
    case isFalse hgate => simp at h

/-- C10, witness: denoising out of `stateAfterExtract` leaves the video,
the extracted audio and the transcript fields as they were. -/
theorem c10_witness :
    stateAfterDenoise.session.processed_video =
        stateAfterExtract.session.processed_video ∧
      stateAfterDenoise.session.extracted_audio =
        stateAfterExtract.session.extracted_audio ∧
      stateAfterDenoise.session.transcript =
        stateAfterExtract.session.transcript :=
  (c10_stage_frame stateAfterExtract).1 stateAfterDenoise
    [Msg.success "✅ Noise removed successfully!"] rfl

end Classroom
